import Mathlib

/-!
Shallow embedding of the crime-statistics cleaning and loading pipeline
(`app.py`): the record normalizer `load_and_clean_data`, the reconciling
loader `create_normalized_database` over a four-table relational store,
and the by-month / by-quarter aggregation projections.
-/

/-! ## String helpers (models of the pandas string operations used) -/

/-- Leading and trailing whitespace removal on a character list. -/
def pyStripChars (l : List Char) : List Char :=
  ((l.dropWhile Char.isWhitespace).reverse.dropWhile Char.isWhitespace).reverse

/-- Model of Python `str.strip` (leading/trailing whitespace removal). -/
def pyStrip (s : String) : String := String.mk (pyStripChars s.data)

/-- Model of Python `str.upper` on the characters this data set uses:
ASCII letters plus the lowercase accented Latin letters of Portuguese. -/
def pyCharUpper (c : Char) : Char :=
  if c = 'á' then 'Á' else if c = 'à' then 'À' else if c = 'â' then 'Â'
  else if c = 'ã' then 'Ã' else if c = 'ç' then 'Ç' else if c = 'é' then 'É'
  else if c = 'ê' then 'Ê' else if c = 'í' then 'Í' else if c = 'ó' then 'Ó'
  else if c = 'ô' then 'Ô' else if c = 'õ' then 'Õ' else if c = 'ú' then 'Ú'
  else c.toUpper

/-- Model of Python `str.upper` applied characterwise. -/
def pyUpper (s : String) : String := String.mk (s.data.map pyCharUpper)

/-- Digits of a numeral folded into a natural number. -/
def digitsToNat (l : List Char) : Nat :=
  l.foldl (fun n c => 10 * n + (c.toNat - 48)) 0

/-- A nonempty all-digit character list parsed as a natural number. -/
def parseDigits (l : List Char) : Option Nat :=
  if l.isEmpty then none
  else if l.all Char.isDigit then some (digitsToNat l) else none

/-- Model of `pd.to_numeric(·, errors='coerce')` on a single cell,
restricted to integer literals (an optionally signed digit string, with
surrounding whitespace tolerated); anything else coerces to NaN (`none`). -/
def toNumericInt (s : String) : Option Int :=
  match pyStripChars s.data with
  | [] => none
  | c :: rest =>
      if c = '-' then (parseDigits rest).map (fun n => -(n : Int))
      else if c = '+' then (parseDigits rest).map (fun n => (n : Int))
      else (parseDigits (c :: rest)).map (fun n => (n : Int))

/-- Columnwise `pd.to_numeric(·, errors='coerce')`: a missing cell (NaN)
stays missing, a present cell is parsed. -/
def toNumeric (o : Option String) : Option Int := o.bind toNumericInt

/-! ## The record normalizer (`load_and_clean_data`) -/

/-- A raw CSV row as read by `pd.read_csv(csv_path, sep=';')`: text cells
that may be missing (NaN) are `Option String`; `cod_municipio` is kept as
the string pandas yields after `astype(str)`. -/
structure RawRow where
  municipio : Option String
  cod_municipio : String
  natureza : Option String
  rmbh : Option String
  registros : Option String
  mes : Option String
  ano : Option String
  risp : Option String
deriving DecidableEq, Repr

/-- A row after the columnwise coercions of `load_and_clean_data`
(lines 36-50 of `app.py`), before `dropna` and the final `astype(int)`. -/
structure CoercedRow where
  municipio : Option String
  cod_municipio : String
  natureza : Option String
  rmbh : Option Bool
  registros : Option Int
  mes : Option Int
  ano : Option Int
  rispN : Option Int
deriving DecidableEq, Repr

/-- The dict `map({'SIM': True, 'NÃO': False})` applied after
`str.strip().str.upper()`: unmapped literals become NaN (`none`). -/
def rmbhMap (u : String) : Option Bool :=
  if u = "SIM" then some true else if u = "NÃO" then some false else none

/-- The columnwise coercions of `load_and_clean_data`, gathered per row:
`municipio` strip+upper, `natureza` strip, `rmbh` strip+upper+map,
`registros`/`mes`/`ano`/`risp` to_numeric, `cod_municipio` astype(str)+strip. -/
def coerceRow (r : RawRow) : CoercedRow :=
  { municipio := r.municipio.map (fun s => pyUpper (pyStrip s))
    cod_municipio := pyStrip r.cod_municipio
    natureza := r.natureza.map pyStrip
    rmbh := r.rmbh.bind (fun s => rmbhMap (pyUpper (pyStrip s)))
    registros := toNumeric r.registros
    mes := toNumeric r.mes
    ano := toNumeric r.ano
    rispN := toNumeric r.risp }

/-- A cleaned row as returned by `load_and_clean_data`: numeric fields
materialized as integers, `natureza_padronizada` the upper-cased copy of
the stripped `natureza`. -/
structure CleanRow where
  municipio : Option String
  cod_municipio : String
  natureza : Option String
  natureza_padronizada : Option String
  rmbh : Option Bool
  registros : Int
  mes : Int
  ano : Int
  risp : Int
deriving DecidableEq, Repr

/-- The final materialization of a surviving row: `astype(int)` on
`registros`/`mes`/`ano` (all non-NaN after the `dropna`), plus the derived
`natureza_padronizada` column (line 65 of `app.py`). -/
def finalizeRow (m : CoercedRow) : CleanRow :=
  { municipio := m.municipio
    cod_municipio := m.cod_municipio
    natureza := m.natureza
    natureza_padronizada := m.natureza.map pyUpper
    rmbh := m.rmbh
    registros := m.registros.getD 0
    mes := m.mes.getD 0
    ano := m.ano.getD 0
    risp := m.rispN.getD 0 }

/-- The message of the `IntCastingNaNError` pandas raises when
`.astype(int)` meets a NaN (line 50 of `app.py` applies `astype(int)` to
the `risp` column before the `dropna` of line 53). -/
def intCastErr : String := "Cannot convert non-finite values (NA or inf) to integer"

/-- Model of `load_and_clean_data` (app.py lines 14-70).  Column order as
in the source: coercions first; then line 50's
`pd.to_numeric(df["risp"], errors='coerce').astype(int)` over the whole
column — which raises if any row's `risp` failed to parse, since the
`dropna` only runs afterwards; then `dropna(subset=["registros","mes",
"ano","risp"])` (at which point `risp` is already an integer column, so
only the first three can be NaN); then `astype(int)` on those three and
the `natureza_padronizada` derivation. -/
def load_and_clean_data (rows : List RawRow) : Except String (List CleanRow) :=
  if (rows.map coerceRow).any (fun m => m.rispN.isNone) then
    Except.error intCastErr
  else
    Except.ok
      (((rows.map coerceRow).filter
          (fun m => m.registros.isSome && m.mes.isSome && m.ano.isSome)).map finalizeRow)

/-! ## The relational store (`create_normalized_database`, app.py 75-241)

The four SQLAlchemy tables are embedded as Lean structures, the session
state as lists of rows plus the MySQL autoincrement counters (which start
at 1).  `session.add` with default autoflush means an existence query
issued later in the same pass already sees rows added earlier, so each
model insertion appends to the table immediately. -/

/-- Row of table `risp` (class `Risp`). -/
structure Risp where
  id : Int
  descricao : String
deriving DecidableEq, Repr

/-- Row of table `municipio` (class `Municipio`); `nome` carries the
cleaned `municipio` cell, which the normalizer leaves as `Option`. -/
structure Municipio where
  cod_municipio : String
  nome : Option String
  risp_id : Int
deriving DecidableEq, Repr

/-- Row of table `tipo_crime` (class `TipoCrime`); `nome` carries the
cleaned `natureza_padronizada` cell. -/
structure TipoCrime where
  id : Nat
  nome : Option String
deriving DecidableEq, Repr

/-- Row of table `crime` (class `Crime`); `tipo_crime_id` mirrors
`tipo_crime_dict.get(...)`, which is an optional lookup. -/
structure Crime where
  id : Nat
  mes : Int
  ano : Int
  registros : Int
  rmbh : Option Bool
  municipio_id : String
  tipo_crime_id : Option Nat
deriving DecidableEq, Repr

/-- The persistent store: the four tables plus autoincrement counters. -/
structure DB where
  risp : List Risp
  municipio : List Municipio
  tipo_crime : List TipoCrime
  next_tipo_id : Nat
  crime : List Crime
  next_crime_id : Nat
deriving DecidableEq, Repr

/-- A freshly created schema: empty tables, autoincrement counters at 1. -/
def emptyDB : DB :=
  { risp := [], municipio := [], tipo_crime := [], next_tipo_id := 1,
    crime := [], next_crime_id := 1 }

/-- Model of pandas `unique()` / `drop_duplicates()`: the distinct values
of a list in order of first occurrence. -/
def pdUnique {α : Type} [DecidableEq α] (l : List α) : List α :=
  l.foldl (fun acc x => if x ∈ acc then acc else acc ++ [x]) []

/-- One iteration of the RISP insertion loop (app.py 177-181): insert the
region if no row with that id exists. -/
def rispStep (db : DB) (r : Int) : DB :=
  if db.risp.any (fun x => x.id == r) then db
  else { db with risp := db.risp ++ [{ id := r, descricao := "RISP " ++ toString r }] }

/-- The RISP insertion loop over the distinct `risp` values. -/
def insertRisps (rs : List Int) (db : DB) : DB := rs.foldl rispStep db

/-- One iteration of the municipality insertion loop (app.py 189-197):
the triple is a `(cod_municipio, municipio, risp)` row of the
deduplicated projection; insert unless the code already exists. -/
def muniStep (db : DB) (t : String × Option String × Int) : DB :=
  if db.municipio.any (fun m => m.cod_municipio == t.1) then db
  else { db with municipio := db.municipio ++ [{ cod_municipio := t.1, nome := t.2.1, risp_id := t.2.2 }] }

/-- The municipality insertion loop over the deduplicated triples. -/
def insertMunicipios (ts : List (String × Option String × Int)) (db : DB) : DB :=
  ts.foldl muniStep db

/-- One iteration of the crime-type loop (app.py 206-214): look the name
up; if absent insert it (committing, so the autoincrement id is assigned)
and record `name -> id` in the dict; else record the existing id.  The
dict is an association list where the most recent binding wins, matching
Python dict assignment. -/
def tipoStep (p : DB × List (Option String × Nat)) (nome : Option String) :
    DB × List (Option String × Nat) :=
  match p.1.tipo_crime.find? (fun t => t.nome == nome) with
  | some t => (p.1, (nome, t.id) :: p.2)
  | none =>
      ({ p.1 with
          tipo_crime := p.1.tipo_crime ++ [{ id := p.1.next_tipo_id, nome := nome }],
          next_tipo_id := p.1.next_tipo_id + 1 },
       (nome, p.1.next_tipo_id) :: p.2)

/-- The crime-type loop over the distinct standardized names, returning
the updated store and the name-to-id dict. -/
def insertTipos (tipos : List (Option String)) (db : DB) :
    DB × List (Option String × Nat) :=
  tipos.foldl tipoStep (db, [])

/-- One iteration of the incident insertion loop (app.py 222-238): resolve
the type id via the dict, check for an existing row with the same
`(municipio_id, tipo_crime_id, mes, ano)` key, insert only if absent. -/
def crimeStep (dict : List (Option String × Nat)) (db : DB) (row : CleanRow) : DB :=
  if db.crime.any (fun c =>
      c.municipio_id == row.cod_municipio &&
      c.tipo_crime_id == dict.lookup row.natureza_padronizada &&
      c.mes == row.mes && c.ano == row.ano) then db
  else { db with
          crime := db.crime ++ [{ id := db.next_crime_id, mes := row.mes, ano := row.ano,
                                  registros := row.registros, rmbh := row.rmbh,
                                  municipio_id := row.cod_municipio,
                                  tipo_crime_id := dict.lookup row.natureza_padronizada }],
          next_crime_id := db.next_crime_id + 1 }

/-- The incident insertion loop over every cleaned row. -/
def insertCrimes (df : List CleanRow) (dict : List (Option String × Nat)) (db : DB) : DB :=
  df.foldl (crimeStep dict) db

/-- The four insertion phases of the loader, in dependency order
(app.py 176-239), as run when the fast path does not fire. -/
def loadInserts (df : List CleanRow) (db : DB) : DB :=
  let db1 := insertRisps (pdUnique (df.map CleanRow.risp)) db
  let db2 := insertMunicipios
    (pdUnique (df.map (fun r => (r.cod_municipio, r.municipio, r.risp)))) db1
  let p := insertTipos (pdUnique (df.map CleanRow.natureza_padronizada)) db2
  insertCrimes df p.2 p.1

/-- Model of `create_normalized_database` (app.py 75-241): if the crime
table already holds a row, skip insertion entirely (lines 166-169);
otherwise run the four insertion phases. -/
def create_normalized_database (df : List CleanRow) (db : DB) : DB :=
  if db.crime ≠ [] then db else loadInserts df db

/-! ## The aggregation projections (app.py 266-324) -/

/-- Model of `groupby(...)[...].sum()` on key/value pairs: one row per
distinct key with the sum of that key's values.  (pandas sorts group
keys; the projections below reindex by explicit key lookup, so group
order is immaterial to them.) -/
def pdGroupBySum (pairs : List (Int × Int)) : List (Int × Int) :=
  (pdUnique (pairs.map Prod.fst)).map
    (fun k => (k, ((pairs.filter (fun p => p.1 == k)).map Prod.snd).foldl (· + ·) 0))

/-- Model of `set_index(...).reindex(idx, fill_value=0).reset_index()`:
one row per index key, with the grouped value or 0. -/
def pdReindex (table : List (Int × Int)) (idx : List Int) : List (Int × Int) :=
  idx.map (fun k => (k, (table.lookup k).getD 0))

/-- The table computed by `plot_crimes_por_mes` (app.py 276-278): group
by `mes`, sum `registros`, reindex months 1..12 with fill 0. -/
def crimes_por_mes (df : List CleanRow) : List (Int × Int) :=
  pdReindex (pdGroupBySum (df.map (fun r => (r.mes, r.registros))))
    ((List.range 12).map (fun i => (i : Int) + 1))

/-- The table computed by `plot_crimes_por_trimestre` (app.py 310-312):
derive `trimestre = ((mes - 1) // 3) + 1` with Python floor division,
group and sum, reindex quarters 1..4 with fill 0. -/
def crimes_por_trimestre (df : List CleanRow) : List (Int × Int) :=
  pdReindex
    (pdGroupBySum (df.map (fun r => (Int.fdiv (r.mes - 1) 3 + 1, r.registros))))
    ((List.range 4).map (fun i => (i : Int) + 1))

/-! ## Spec-side definitions, written from the specification's words for
comparison against the source-derived definitions above -/

/-- Spec §4.1 boolean mapping, as worded: after trimming and case
folding, the yes-token maps to true, the no-token to false, anything
else (missing included) to an absent value. -/
def spec_rmbh (v : Option String) : Option Bool :=
  match v with
  | none => none
  | some s =>
      if pyUpper (pyStrip s) = "SIM" then some true
      else if pyUpper (pyStrip s) = "NÃO" then some false
      else none

/-- Spec §4.1 per-row output, as worded: text fields standardized, the
derived standardized-type column, numeric fields materialized as
integers. -/
def spec_clean_row (r : RawRow) : CleanRow :=
  { municipio := r.municipio.map (fun s => pyUpper (pyStrip s))
    cod_municipio := pyStrip r.cod_municipio
    natureza := r.natureza.map pyStrip
    natureza_padronizada := r.natureza.map (fun s => pyUpper (pyStrip s))
    rmbh := spec_rmbh r.rmbh
    registros := (toNumeric r.registros).getD 0
    mes := (toNumeric r.mes).getD 0
    ano := (toNumeric r.ano).getD 0
    risp := (toNumeric r.risp).getD 0 }

/-- Spec §4.1 row filtering, as worded: a row is kept exactly when
`registros`, `mes`, `ano` and `risp` are all present after coercion;
kept rows are cleaned per `spec_clean_row`.  (Absent `rmbh` does not
filter a row.) -/
def spec_clean (rows : List RawRow) : List CleanRow :=
  (rows.filter (fun r =>
      (toNumeric r.registros).isSome && (toNumeric r.mes).isSome &&
      (toNumeric r.ano).isSome && (toNumeric r.risp).isSome)).map spec_clean_row

/-- Spec §4.4 by-month aggregate, as worded: the total of `registros`
over the rows of a given month. -/
def spec_sum_mes (df : List CleanRow) (m : Int) : Int :=
  ((df.filter (fun r => r.mes == m)).map CleanRow.registros).foldl (· + ·) 0

/-- Spec §4.4 by-quarter aggregate, as worded: the total of `registros`
over the rows whose derived quarter `((mes - 1) // 3) + 1` is the given
one. -/
def spec_sum_trimestre (df : List CleanRow) (q : Int) : Int :=
  ((df.filter (fun r => Int.fdiv (r.mes - 1) 3 + 1 == q)).map CleanRow.registros).foldl (· + ·) 0

/-! ## Generic list lemmas -/

theorem mem_dedupFold {α : Type} [DecidableEq α] (l : List α) :
    ∀ (acc : List α) (x : α),
      x ∈ l.foldl (fun acc y => if y ∈ acc then acc else acc ++ [y]) acc ↔ x ∈ acc ∨ x ∈ l := by
  induction l with
  | nil => intro acc x; simp
  | cons y l ih =>
      intro acc x
      rw [List.foldl_cons, ih]
      by_cases hy : y ∈ acc
      · simp only [if_pos hy, List.mem_cons]
        constructor
        · rintro (h | h)
          · exact Or.inl h
          · exact Or.inr (Or.inr h)
        · rintro (h | rfl | h)
          · exact Or.inl h
          · exact Or.inl hy
          · exact Or.inr h
      · simp only [if_neg hy, List.mem_append, List.mem_singleton, List.mem_cons]
        tauto

theorem mem_pdUnique {α : Type} [DecidableEq α] (l : List α) (x : α) :
    x ∈ pdUnique l ↔ x ∈ l := by
  unfold pdUnique
  rw [mem_dedupFold]
  simp

theorem nodup_append_single {α : Type} (l : List α) (a : α) (h1 : l.Nodup) (h2 : a ∉ l) :
    (l ++ [a]).Nodup := by
  rw [List.nodup_append]
  refine ⟨h1, List.nodup_singleton a, fun x hx hxa => ?_⟩
  rw [List.mem_singleton] at hxa
  exact h2 (hxa ▸ hx)

theorem lookup_map_mem {α β : Type} [BEq α] [LawfulBEq α] (f : α → β) (keys : List α) :
    ∀ k ∈ keys, (keys.map (fun a => (a, f a))).lookup k = some (f k) := by
  induction keys with
  | nil => intro k hk; cases hk
  | cons a keys ih =>
      intro k hk
      rcases hb : k == a with _ | _
      · have hk2 : k ≠ a := fun he => by simp [he] at hb
        have hmem : k ∈ keys := by
          rcases List.mem_cons.mp hk with h | h
          · exact absurd h hk2
          · exact h
        simp only [List.map_cons, List.lookup, hb]
        exact ih k hmem
      · have hk2 : k = a := eq_of_beq hb
        subst hk2
        simp only [List.map_cons, List.lookup, hb]

theorem lookup_map_not_mem {α β : Type} [BEq α] [LawfulBEq α] (f : α → β) (keys : List α) :
    ∀ (k : α), k ∉ keys → (keys.map (fun a => (a, f a))).lookup k = none := by
  induction keys with
  | nil => intro k _; rfl
  | cons a keys ih =>
      intro k hk
      have hka : k ≠ a := fun h => hk (h ▸ List.mem_cons_self a keys)
      have hkm : k ∉ keys := fun h => hk (List.mem_cons_of_mem a h)
      have hb : (k == a) = false := by
        rcases hb2 : k == a with _ | _
        · rfl
        · exact absurd (eq_of_beq hb2) hka
      simp only [List.map_cons, List.lookup, hb]
      exact ih k hkm

theorem lookup_mem {α β : Type} [BEq α] [LawfulBEq α] (d : List (α × β)) :
    ∀ (k : α) (v : β), d.lookup k = some v → (k, v) ∈ d := by
  induction d with
  | nil => intro k v h; cases h
  | cons a d ih =>
      intro k v h
      obtain ⟨a1, b1⟩ := a
      rcases hb : k == a1 with _ | _
      · simp only [List.lookup, hb] at h
        exact List.mem_cons_of_mem _ (ih k v h)
      · simp only [List.lookup, hb] at h
        cases h
        have hk : k = a1 := eq_of_beq hb
        subst hk
        exact List.mem_cons_self _ _

/-! ## Lemmas about the RISP insertion phase -/

theorem rispStep_municipio (db : DB) (r : Int) : (rispStep db r).municipio = db.municipio := by
  unfold rispStep; split <;> rfl

theorem rispStep_tipo (db : DB) (r : Int) : (rispStep db r).tipo_crime = db.tipo_crime := by
  unfold rispStep; split <;> rfl

theorem rispStep_next_tipo (db : DB) (r : Int) : (rispStep db r).next_tipo_id = db.next_tipo_id := by
  unfold rispStep; split <;> rfl

theorem rispStep_crime (db : DB) (r : Int) : (rispStep db r).crime = db.crime := by
  unfold rispStep; split <;> rfl

theorem rispStep_next_crime (db : DB) (r : Int) : (rispStep db r).next_crime_id = db.next_crime_id := by
  unfold rispStep; split <;> rfl

theorem insertRisps_municipio (rs : List Int) : ∀ (db : DB),
    (insertRisps rs db).municipio = db.municipio := by
  induction rs with
  | nil => intro db; rfl
  | cons r rs ih =>
      intro db
      exact (ih (rispStep db r)).trans (rispStep_municipio db r)

theorem insertRisps_tipo (rs : List Int) : ∀ (db : DB),
    (insertRisps rs db).tipo_crime = db.tipo_crime := by
  induction rs with
  | nil => intro db; rfl
  | cons r rs ih =>
      intro db
      exact (ih (rispStep db r)).trans (rispStep_tipo db r)

theorem insertRisps_next_tipo (rs : List Int) : ∀ (db : DB),
    (insertRisps rs db).next_tipo_id = db.next_tipo_id := by
  induction rs with
  | nil => intro db; rfl
  | cons r rs ih =>
      intro db
      exact (ih (rispStep db r)).trans (rispStep_next_tipo db r)

theorem insertRisps_crime (rs : List Int) : ∀ (db : DB),
    (insertRisps rs db).crime = db.crime := by
  induction rs with
  | nil => intro db; rfl
  | cons r rs ih =>
      intro db
      exact (ih (rispStep db r)).trans (rispStep_crime db r)

theorem insertRisps_next_crime (rs : List Int) : ∀ (db : DB),
    (insertRisps rs db).next_crime_id = db.next_crime_id := by
  induction rs with
  | nil => intro db; rfl
  | cons r rs ih =>
      intro db
      exact (ih (rispStep db r)).trans (rispStep_next_crime db r)

theorem rispStep_nodup (db : DB) (r : Int) (h : (db.risp.map Risp.id).Nodup) :
    ((rispStep db r).risp.map Risp.id).Nodup := by
  unfold rispStep
  split
  · exact h
  · rename_i hany
    rw [Bool.not_eq_true] at hany
    rw [List.any_eq_false] at hany
    rw [List.map_append]
    refine nodup_append_single _ _ h ?_
    intro hr
    obtain ⟨x, hx, hxe⟩ := List.mem_map.mp hr
    exact hany x hx (by simp [hxe])

theorem insertRisps_nodup (rs : List Int) : ∀ (db : DB),
    (db.risp.map Risp.id).Nodup → ((insertRisps rs db).risp.map Risp.id).Nodup := by
  induction rs with
  | nil => intro db h; exact h
  | cons r rs ih =>
      intro db h
      exact ih (rispStep db r) (rispStep_nodup db r h)

theorem rispStep_mono (db : DB) (r : Int) (x : Risp) (hx : x ∈ db.risp) :
    x ∈ (rispStep db r).risp := by
  unfold rispStep
  split
  · exact hx
  · exact List.mem_append_left _ hx

theorem insertRisps_mono (rs : List Int) : ∀ (db : DB) (x : Risp),
    x ∈ db.risp → x ∈ (insertRisps rs db).risp := by
  induction rs with
  | nil => intro db x hx; exact hx
  | cons r rs ih =>
      intro db x hx
      exact ih (rispStep db r) x (rispStep_mono db r x hx)

theorem rispStep_complete (db : DB) (r : Int) : ∃ x ∈ (rispStep db r).risp, x.id = r := by
  unfold rispStep
  split
  · rename_i hany
    obtain ⟨x, hx, hxe⟩ := List.any_eq_true.mp hany
    exact ⟨x, hx, by simpa using hxe⟩
  · exact ⟨{ id := r, descricao := "RISP " ++ toString r },
      List.mem_append_right _ (List.mem_singleton.mpr rfl), rfl⟩

theorem insertRisps_complete (rs : List Int) : ∀ (db : DB) (r : Int), r ∈ rs →
    ∃ x ∈ (insertRisps rs db).risp, x.id = r := by
  induction rs with
  | nil => intro db r hr; cases hr
  | cons a rs ih =>
      intro db r hr
      rcases List.mem_cons.mp hr with h | h
      · subst h
        obtain ⟨x, hx, hxe⟩ := rispStep_complete db r
        exact ⟨x, insertRisps_mono rs (rispStep db r) x hx, hxe⟩
      · exact ih (rispStep db a) r h

/-! ## Lemmas about the municipality insertion phase -/

theorem muniStep_risp (db : DB) (t : String × Option String × Int) :
    (muniStep db t).risp = db.risp := by
  unfold muniStep; split <;> rfl

theorem muniStep_tipo (db : DB) (t : String × Option String × Int) :
    (muniStep db t).tipo_crime = db.tipo_crime := by
  unfold muniStep; split <;> rfl

theorem muniStep_next_tipo (db : DB) (t : String × Option String × Int) :
    (muniStep db t).next_tipo_id = db.next_tipo_id := by
  unfold muniStep; split <;> rfl

theorem muniStep_crime (db : DB) (t : String × Option String × Int) :
    (muniStep db t).crime = db.crime := by
  unfold muniStep; split <;> rfl

theorem muniStep_next_crime (db : DB) (t : String × Option String × Int) :
    (muniStep db t).next_crime_id = db.next_crime_id := by
  unfold muniStep; split <;> rfl

theorem insertMunicipios_risp (ts : List (String × Option String × Int)) : ∀ (db : DB),
    (insertMunicipios ts db).risp = db.risp := by
  induction ts with
  | nil => intro db; rfl
  | cons t ts ih =>
      intro db
      exact (ih (muniStep db t)).trans (muniStep_risp db t)

theorem insertMunicipios_tipo (ts : List (String × Option String × Int)) : ∀ (db : DB),
    (insertMunicipios ts db).tipo_crime = db.tipo_crime := by
  induction ts with
  | nil => intro db; rfl
  | cons t ts ih =>
      intro db
      exact (ih (muniStep db t)).trans (muniStep_tipo db t)

theorem insertMunicipios_next_tipo (ts : List (String × Option String × Int)) : ∀ (db : DB),
    (insertMunicipios ts db).next_tipo_id = db.next_tipo_id := by
  induction ts with
  | nil => intro db; rfl
  | cons t ts ih =>
      intro db
      exact (ih (muniStep db t)).trans (muniStep_next_tipo db t)

theorem insertMunicipios_crime (ts : List (String × Option String × Int)) : ∀ (db : DB),
    (insertMunicipios ts db).crime = db.crime := by
  induction ts with
  | nil => intro db; rfl
  | cons t ts ih =>
      intro db
      exact (ih (muniStep db t)).trans (muniStep_crime db t)

theorem insertMunicipios_next_crime (ts : List (String × Option String × Int)) : ∀ (db : DB),
    (insertMunicipios ts db).next_crime_id = db.next_crime_id := by
  induction ts with
  | nil => intro db; rfl
  | cons t ts ih =>
      intro db
      exact (ih (muniStep db t)).trans (muniStep_next_crime db t)

theorem muniStep_nodup (db : DB) (t : String × Option String × Int)
    (h : (db.municipio.map Municipio.cod_municipio).Nodup) :
    ((muniStep db t).municipio.map Municipio.cod_municipio).Nodup := by
  unfold muniStep
  split
  · exact h
  · rename_i hany
    rw [Bool.not_eq_true] at hany
    rw [List.any_eq_false] at hany
    rw [List.map_append]
    refine nodup_append_single _ _ h ?_
    intro hr
    obtain ⟨x, hx, hxe⟩ := List.mem_map.mp hr
    exact hany x hx (by simp [hxe])

theorem insertMunicipios_nodup (ts : List (String × Option String × Int)) : ∀ (db : DB),
    (db.municipio.map Municipio.cod_municipio).Nodup →
    ((insertMunicipios ts db).municipio.map Municipio.cod_municipio).Nodup := by
  induction ts with
  | nil => intro db h; exact h
  | cons t ts ih =>
      intro db h
      exact ih (muniStep db t) (muniStep_nodup db t h)

theorem muniStep_mono (db : DB) (t : String × Option String × Int) (x : Municipio)
    (hx : x ∈ db.municipio) : x ∈ (muniStep db t).municipio := by
  unfold muniStep
  split
  · exact hx
  · exact List.mem_append_left _ hx

theorem insertMunicipios_mono (ts : List (String × Option String × Int)) :
    ∀ (db : DB) (x : Municipio), x ∈ db.municipio → x ∈ (insertMunicipios ts db).municipio := by
  induction ts with
  | nil => intro db x hx; exact hx
  | cons t ts ih =>
      intro db x hx
      exact ih (muniStep db t) x (muniStep_mono db t x hx)

theorem muniStep_complete (db : DB) (t : String × Option String × Int) :
    ∃ m ∈ (muniStep db t).municipio, m.cod_municipio = t.1 := by
  unfold muniStep
  split
  · rename_i hany
    obtain ⟨x, hx, hxe⟩ := List.any_eq_true.mp hany
    exact ⟨x, hx, by simpa using hxe⟩
  · exact ⟨{ cod_municipio := t.1, nome := t.2.1, risp_id := t.2.2 },
      List.mem_append_right _ (List.mem_singleton.mpr rfl), rfl⟩

theorem insertMunicipios_complete (ts : List (String × Option String × Int)) :
    ∀ (db : DB) (t : String × Option String × Int), t ∈ ts →
    ∃ m ∈ (insertMunicipios ts db).municipio, m.cod_municipio = t.1 := by
  induction ts with
  | nil => intro db t ht; cases ht
  | cons a ts ih =>
      intro db t ht
      rcases List.mem_cons.mp ht with h | h
      · subst h
        obtain ⟨m, hm, hme⟩ := muniStep_complete db t
        exact ⟨m, insertMunicipios_mono ts (muniStep db t) m hm, hme⟩
      · exact ih (muniStep db a) t h

theorem muniStep_charac (db : DB) (t : String × Option String × Int) (m : Municipio)
    (hm : m ∈ (muniStep db t).municipio) :
    m ∈ db.municipio ∨ m = { cod_municipio := t.1, nome := t.2.1, risp_id := t.2.2 } := by
  unfold muniStep at hm
  split at hm
  · exact Or.inl hm
  · rcases List.mem_append.mp hm with h | h
    · exact Or.inl h
    · exact Or.inr (List.mem_singleton.mp h)

theorem insertMunicipios_charac (ts : List (String × Option String × Int)) :
    ∀ (db : DB) (m : Municipio), m ∈ (insertMunicipios ts db).municipio →
    m ∈ db.municipio ∨ ∃ t ∈ ts, m = { cod_municipio := t.1, nome := t.2.1, risp_id := t.2.2 } := by
  induction ts with
  | nil => intro db m hm; exact Or.inl hm
  | cons a ts ih =>
      intro db m hm
      rcases ih (muniStep db a) m hm with h | h
      · rcases muniStep_charac db a m h with h2 | h2
        · exact Or.inl h2
        · exact Or.inr ⟨a, List.mem_cons_self a ts, h2⟩
      · obtain ⟨t, ht, hte⟩ := h
        exact Or.inr ⟨t, List.mem_cons_of_mem a ht, hte⟩

/-! ## Lemmas about the crime-type insertion phase -/

theorem tipoStep_risp (p : DB × List (Option String × Nat)) (nome : Option String) :
    (tipoStep p nome).1.risp = p.1.risp := by
  unfold tipoStep
  rcases h : p.1.tipo_crime.find? (fun t => t.nome == nome) with _ | t <;> simp [h]

theorem tipoStep_municipio (p : DB × List (Option String × Nat)) (nome : Option String) :
    (tipoStep p nome).1.municipio = p.1.municipio := by
  unfold tipoStep
  rcases h : p.1.tipo_crime.find? (fun t => t.nome == nome) with _ | t <;> simp [h]

theorem tipoStep_crime (p : DB × List (Option String × Nat)) (nome : Option String) :
    (tipoStep p nome).1.crime = p.1.crime := by
  unfold tipoStep
  rcases h : p.1.tipo_crime.find? (fun t => t.nome == nome) with _ | t <;> simp [h]

theorem tipoStep_next_crime (p : DB × List (Option String × Nat)) (nome : Option String) :
    (tipoStep p nome).1.next_crime_id = p.1.next_crime_id := by
  unfold tipoStep
  rcases h : p.1.tipo_crime.find? (fun t => t.nome == nome) with _ | t <;> simp [h]

theorem tipoStep_tipo_mono (p : DB × List (Option String × Nat)) (nome : Option String)
    (t : TipoCrime) (ht : t ∈ p.1.tipo_crime) : t ∈ (tipoStep p nome).1.tipo_crime := by
  unfold tipoStep
  rcases h : p.1.tipo_crime.find? (fun x => x.nome == nome) with _ | u
  · simp only [h]
    exact List.mem_append_left _ ht
  · simpa [h] using ht

theorem tipoStep_nodup (p : DB × List (Option String × Nat)) (nome : Option String)
    (h : (p.1.tipo_crime.map TipoCrime.nome).Nodup) :
    ((tipoStep p nome).1.tipo_crime.map TipoCrime.nome).Nodup := by
  unfold tipoStep
  rcases hf : p.1.tipo_crime.find? (fun t => t.nome == nome) with _ | t
  · simp only [hf, List.map_append]
    refine nodup_append_single _ _ h ?_
    intro hmem
    obtain ⟨x, hx, hxe⟩ := List.mem_map.mp hmem
    have := List.find?_eq_none.mp hf x hx
    simp [hxe] at this
  · simpa [hf] using h

theorem tipoStep_lookup_isSome (p : DB × List (Option String × Nat)) (nome : Option String) :
    ((tipoStep p nome).2.lookup nome).isSome := by
  unfold tipoStep
  rcases h : p.1.tipo_crime.find? (fun t => t.nome == nome) with _ | t <;>
    simp [h, List.lookup]

theorem tipoStep_lookup_mono (p : DB × List (Option String × Nat)) (nome n : Option String)
    (h : (p.2.lookup n).isSome) : ((tipoStep p nome).2.lookup n).isSome := by
  unfold tipoStep
  rcases hf : p.1.tipo_crime.find? (fun t => t.nome == nome) with _ | t <;>
    · simp only [hf, List.lookup]
      rcases hb : n == nome with _ | _
      · simpa using h
      · simp

theorem tipoStep_dict_backed (p : DB × List (Option String × Nat)) (nome : Option String)
    (h : ∀ q ∈ p.2, ∃ t ∈ p.1.tipo_crime, t.id = q.2) :
    ∀ q ∈ (tipoStep p nome).2, ∃ t ∈ (tipoStep p nome).1.tipo_crime, t.id = q.2 := by
  intro q hq
  unfold tipoStep at hq ⊢
  rcases hf : p.1.tipo_crime.find? (fun t => t.nome == nome) with _ | t
  · simp only [hf] at hq ⊢
    rcases List.mem_cons.mp hq with hq1 | hq1
    · subst hq1
      exact ⟨{ id := p.1.next_tipo_id, nome := nome },
        List.mem_append_right _ (List.mem_singleton.mpr rfl), rfl⟩
    · obtain ⟨t, ht, hte⟩ := h q hq1
      exact ⟨t, List.mem_append_left _ ht, hte⟩
  · simp only [hf] at hq ⊢
    rcases List.mem_cons.mp hq with hq1 | hq1
    · subst hq1
      exact ⟨t, List.mem_of_find?_eq_some hf, rfl⟩
    · exact h q hq1

theorem tiposFold_risp (tipos : List (Option String)) :
    ∀ (p : DB × List (Option String × Nat)),
    (tipos.foldl tipoStep p).1.risp = p.1.risp := by
  induction tipos with
  | nil => intro p; rfl
  | cons nome tipos ih =>
      intro p
      exact (ih (tipoStep p nome)).trans (tipoStep_risp p nome)

theorem tiposFold_municipio (tipos : List (Option String)) :
    ∀ (p : DB × List (Option String × Nat)),
    (tipos.foldl tipoStep p).1.municipio = p.1.municipio := by
  induction tipos with
  | nil => intro p; rfl
  | cons nome tipos ih =>
      intro p
      exact (ih (tipoStep p nome)).trans (tipoStep_municipio p nome)

theorem tiposFold_crime (tipos : List (Option String)) :
    ∀ (p : DB × List (Option String × Nat)),
    (tipos.foldl tipoStep p).1.crime = p.1.crime := by
  induction tipos with
  | nil => intro p; rfl
  | cons nome tipos ih =>
      intro p
      exact (ih (tipoStep p nome)).trans (tipoStep_crime p nome)

theorem tiposFold_next_crime (tipos : List (Option String)) :
    ∀ (p : DB × List (Option String × Nat)),
    (tipos.foldl tipoStep p).1.next_crime_id = p.1.next_crime_id := by
  induction tipos with
  | nil => intro p; rfl
  | cons nome tipos ih =>
      intro p
      exact (ih (tipoStep p nome)).trans (tipoStep_next_crime p nome)

theorem tiposFold_nodup (tipos : List (Option String)) :
    ∀ (p : DB × List (Option String × Nat)),
    (p.1.tipo_crime.map TipoCrime.nome).Nodup →
    ((tipos.foldl tipoStep p).1.tipo_crime.map TipoCrime.nome).Nodup := by
  induction tipos with
  | nil => intro p h; exact h
  | cons nome tipos ih =>
      intro p h
      exact ih (tipoStep p nome) (tipoStep_nodup p nome h)

theorem tiposFold_tipo_mono (tipos : List (Option String)) :
    ∀ (p : DB × List (Option String × Nat)) (t : TipoCrime),
    t ∈ p.1.tipo_crime → t ∈ (tipos.foldl tipoStep p).1.tipo_crime := by
  induction tipos with
  | nil => intro p t ht; exact ht
  | cons nome tipos ih =>
      intro p t ht
      exact ih (tipoStep p nome) t (tipoStep_tipo_mono p nome t ht)

theorem tiposFold_lookup_aux (tipos : List (Option String)) :
    ∀ (p : DB × List (Option String × Nat)) (nome : Option String),
    (p.2.lookup nome).isSome → ((tipos.foldl tipoStep p).2.lookup nome).isSome := by
  induction tipos with
  | nil => intro p nome h; exact h
  | cons a tipos ih =>
      intro p nome h
      exact ih (tipoStep p a) nome (tipoStep_lookup_mono p a nome h)

theorem tiposFold_lookup_isSome (tipos : List (Option String)) :
    ∀ (p : DB × List (Option String × Nat)) (nome : Option String), nome ∈ tipos →
    (((tipos.foldl tipoStep p).2.lookup nome)).isSome := by
  induction tipos with
  | nil => intro p nome h; cases h
  | cons a tipos ih =>
      intro p nome h
      rcases List.mem_cons.mp h with h1 | h1
      · subst h1
        exact tiposFold_lookup_aux tipos (tipoStep p nome) nome (tipoStep_lookup_isSome p nome)
      · exact ih (tipoStep p a) nome h1

theorem tiposFold_dict_backed (tipos : List (Option String)) :
    ∀ (p : DB × List (Option String × Nat)),
    (∀ q ∈ p.2, ∃ t ∈ p.1.tipo_crime, t.id = q.2) →
    ∀ q ∈ (tipos.foldl tipoStep p).2, ∃ t ∈ (tipos.foldl tipoStep p).1.tipo_crime, t.id = q.2 := by
  induction tipos with
  | nil => intro p h; exact h
  | cons a tipos ih =>
      intro p h
      exact ih (tipoStep p a) (tipoStep_dict_backed p a h)

/-! ## Lemmas about the incident insertion phase -/

theorem crimeStep_risp (dict : List (Option String × Nat)) (db : DB) (row : CleanRow) :
    (crimeStep dict db row).risp = db.risp := by
  unfold crimeStep; split <;> rfl

theorem crimeStep_municipio (dict : List (Option String × Nat)) (db : DB) (row : CleanRow) :
    (crimeStep dict db row).municipio = db.municipio := by
  unfold crimeStep; split <;> rfl

theorem crimeStep_tipo (dict : List (Option String × Nat)) (db : DB) (row : CleanRow) :
    (crimeStep dict db row).tipo_crime = db.tipo_crime := by
  unfold crimeStep; split <;> rfl

theorem insertCrimes_risp (df : List CleanRow) (dict : List (Option String × Nat)) :
    ∀ (db : DB), (insertCrimes df dict db).risp = db.risp := by
  induction df with
  | nil => intro db; rfl
  | cons row df ih =>
      intro db
      exact (ih (crimeStep dict db row)).trans (crimeStep_risp dict db row)

theorem insertCrimes_municipio (df : List CleanRow) (dict : List (Option String × Nat)) :
    ∀ (db : DB), (insertCrimes df dict db).municipio = db.municipio := by
  induction df with
  | nil => intro db; rfl
  | cons row df ih =>
      intro db
      exact (ih (crimeStep dict db row)).trans (crimeStep_municipio dict db row)

theorem insertCrimes_tipo (df : List CleanRow) (dict : List (Option String × Nat)) :
    ∀ (db : DB), (insertCrimes df dict db).tipo_crime = db.tipo_crime := by
  induction df with
  | nil => intro db; rfl
  | cons row df ih =>
      intro db
      exact (ih (crimeStep dict db row)).trans (crimeStep_tipo dict db row)

/-- The composite natural key of an incident row. -/
def crimeKey (c : Crime) : String × Option Nat × Int × Int :=
  (c.municipio_id, c.tipo_crime_id, c.mes, c.ano)

theorem crimeStep_nodup (dict : List (Option String × Nat)) (db : DB) (row : CleanRow)
    (h : (db.crime.map crimeKey).Nodup) :
    ((crimeStep dict db row).crime.map crimeKey).Nodup := by
  unfold crimeStep
  split
  · exact h
  · rename_i hany
    rw [Bool.not_eq_true] at hany
    rw [List.any_eq_false] at hany
    rw [List.map_append]
    refine nodup_append_single _ _ h ?_
    intro hmem
    obtain ⟨x, hx, hxe⟩ := List.mem_map.mp hmem
    have := hany x hx
    unfold crimeKey at hxe
    simp only [Prod.mk.injEq] at hxe
    simp [hxe.1, hxe.2.1, hxe.2.2.1, hxe.2.2.2] at this

theorem insertCrimes_nodup (df : List CleanRow) (dict : List (Option String × Nat)) :
    ∀ (db : DB), (db.crime.map crimeKey).Nodup →
    ((insertCrimes df dict db).crime.map crimeKey).Nodup := by
  induction df with
  | nil => intro db h; exact h
  | cons row df ih =>
      intro db h
      exact ih (crimeStep dict db row) (crimeStep_nodup dict db row h)

theorem crimeStep_charac (dict : List (Option String × Nat)) (db : DB) (row : CleanRow)
    (c : Crime) (hc : c ∈ (crimeStep dict db row).crime) :
    c ∈ db.crime ∨
      (c.municipio_id = row.cod_municipio ∧
       c.tipo_crime_id = dict.lookup row.natureza_padronizada) := by
  unfold crimeStep at hc
  split at hc
  · exact Or.inl hc
  · rcases List.mem_append.mp hc with h | h
    · exact Or.inl h
    · rw [List.mem_singleton] at h
      subst h
      exact Or.inr ⟨rfl, rfl⟩

theorem insertCrimes_charac (df : List CleanRow) (dict : List (Option String × Nat)) :
    ∀ (db : DB) (c : Crime), c ∈ (insertCrimes df dict db).crime →
    c ∈ db.crime ∨ ∃ row ∈ df,
      c.municipio_id = row.cod_municipio ∧
      c.tipo_crime_id = dict.lookup row.natureza_padronizada := by
  induction df with
  | nil => intro db c hc; exact Or.inl hc
  | cons row df ih =>
      intro db c hc
      rcases ih (crimeStep dict db row) c hc with h | h
      · rcases crimeStep_charac dict db row c h with h2 | h2
        · exact Or.inl h2
        · exact Or.inr ⟨row, List.mem_cons_self row df, h2⟩
      · obtain ⟨r, hr, hre⟩ := h
        exact Or.inr ⟨r, List.mem_cons_of_mem row hr, hre⟩

theorem crimeStep_nonempty (dict : List (Option String × Nat)) (db : DB) (row : CleanRow) :
    (crimeStep dict db row).crime ≠ [] := by
  unfold crimeStep
  split
  · rename_i hany
    intro hnil
    rw [hnil] at hany
    simp [List.any] at hany
  · intro hnil
    exact absurd hnil (List.append_ne_nil_of_right_ne_nil _ (by simp))

theorem crimeStep_len (dict : List (Option String × Nat)) (db : DB) (row : CleanRow) :
    db.crime.length ≤ (crimeStep dict db row).crime.length := by
  unfold crimeStep
  split
  · exact Nat.le_refl _
  · simp

theorem insertCrimes_len (df : List CleanRow) (dict : List (Option String × Nat)) :
    ∀ (db : DB), db.crime.length ≤ (insertCrimes df dict db).crime.length := by
  induction df with
  | nil => intro db; exact Nat.le_refl _
  | cons row df ih =>
      intro db
      exact Nat.le_trans (crimeStep_len dict db row) (ih (crimeStep dict db row))

theorem insertCrimes_nonempty (df : List CleanRow) (dict : List (Option String × Nat))
    (db : DB) (hdf : df ≠ []) : (insertCrimes df dict db).crime ≠ [] := by
  match df with
  | [] => exact absurd rfl hdf
  | row :: df =>
      have h1 : (crimeStep dict db row).crime ≠ [] := crimeStep_nonempty dict db row
      have h2 : (crimeStep dict db row).crime.length ≤
          (insertCrimes (row :: df) dict db).crime.length := insertCrimes_len df dict _
      intro hnil
      rw [hnil] at h2
      simp at h2
      exact h1 h2

/-! ## Wrappers restating the fold lemmas for `insertTipos` -/

theorem insertTipos_risp (tipos : List (Option String)) (db : DB) :
    (insertTipos tipos db).1.risp = db.risp := tiposFold_risp tipos (db, [])

theorem insertTipos_municipio (tipos : List (Option String)) (db : DB) :
    (insertTipos tipos db).1.municipio = db.municipio := tiposFold_municipio tipos (db, [])

theorem insertTipos_crime (tipos : List (Option String)) (db : DB) :
    (insertTipos tipos db).1.crime = db.crime := tiposFold_crime tipos (db, [])

theorem insertTipos_next_crime (tipos : List (Option String)) (db : DB) :
    (insertTipos tipos db).1.next_crime_id = db.next_crime_id :=
  tiposFold_next_crime tipos (db, [])

theorem insertTipos_nodup (tipos : List (Option String)) (db : DB)
    (h : (db.tipo_crime.map TipoCrime.nome).Nodup) :
    ((insertTipos tipos db).1.tipo_crime.map TipoCrime.nome).Nodup :=
  tiposFold_nodup tipos (db, []) h

theorem insertTipos_lookup_isSome (tipos : List (Option String)) (db : DB)
    (nome : Option String) (h : nome ∈ tipos) :
    (((insertTipos tipos db).2.lookup nome)).isSome :=
  tiposFold_lookup_isSome tipos (db, []) nome h

theorem insertTipos_dict_backed (tipos : List (Option String)) (db : DB) :
    ∀ q ∈ (insertTipos tipos db).2, ∃ t ∈ (insertTipos tipos db).1.tipo_crime, t.id = q.2 :=
  tiposFold_dict_backed tipos (db, []) (by intro q hq; cases hq)

/-! ## Loader-level lemmas -/

theorem create_skip (df : List CleanRow) (db : DB) (h : db.crime ≠ []) :
    create_normalized_database df db = db := by
  simp [create_normalized_database, h]

theorem create_run (df : List CleanRow) (db : DB) (h : db.crime = []) :
    create_normalized_database df db = loadInserts df db := by
  simp [create_normalized_database, h]

theorem loadInserts_nil (db : DB) : loadInserts [] db = db := rfl

theorem loadInserts_crime_nonempty (df : List CleanRow) (db : DB) (h : df ≠ []) :
    (loadInserts df db).crime ≠ [] := by
  simp only [loadInserts]
  exact insertCrimes_nonempty df _ _ h

/-- The natural/composite-key uniqueness invariant of the four tables
(spec §8 Uniqueness): pairwise-distinct RISP ids, municipality codes,
standardized type names, and `(municipio_id, tipo_crime_id, mes, ano)`
incident keys. -/
def uniqueKeys (db : DB) : Prop :=
  (db.risp.map Risp.id).Nodup ∧
  (db.municipio.map Municipio.cod_municipio).Nodup ∧
  (db.tipo_crime.map TipoCrime.nome).Nodup ∧
  (db.crime.map crimeKey).Nodup

theorem loadInserts_uniqueKeys (df : List CleanRow) (db : DB) (h : uniqueKeys db) :
    uniqueKeys (loadInserts df db) := by
  obtain ⟨h1, h2, h3, h4⟩ := h
  simp only [loadInserts]
  refine ⟨?_, ?_, ?_, ?_⟩
  · rw [insertCrimes_risp, insertTipos_risp, insertMunicipios_risp]
    exact insertRisps_nodup _ db h1
  · rw [insertCrimes_municipio, insertTipos_municipio]
    apply insertMunicipios_nodup
    rw [insertRisps_municipio]
    exact h2
  · rw [insertCrimes_tipo]
    apply insertTipos_nodup
    rw [insertMunicipios_tipo, insertRisps_tipo]
    exact h3
  · apply insertCrimes_nodup
    rw [insertTipos_crime, insertMunicipios_crime, insertRisps_crime]
    exact h4

theorem create_uniqueKeys (df : List CleanRow) (db : DB) (h : uniqueKeys db) :
    uniqueKeys (create_normalized_database df db) := by
  by_cases hc : db.crime = []
  · rw [create_run df db hc]
    exact loadInserts_uniqueKeys df db h
  · rw [create_skip df db hc]
    exact h

/-- The referential-integrity invariant (spec §4.3/§7): every incident
row's type id is non-null and resolves to a `tipo_crime` row, its
municipality code resolves to a `municipio` row, and every municipality's
region id resolves to a `risp` row. -/
def FKInv (db : DB) : Prop :=
  (∀ c ∈ db.crime,
      (∃ t ∈ db.tipo_crime, c.tipo_crime_id = some t.id) ∧
      (∃ m ∈ db.municipio, c.municipio_id = m.cod_municipio)) ∧
  (∀ m ∈ db.municipio, ∃ r ∈ db.risp, m.risp_id = r.id)

theorem loadInserts_FKInv (df : List CleanRow) (db : DB) (hc : db.crime = [])
    (h : FKInv db) : FKInv (loadInserts df db) := by
  obtain ⟨-, hmuni⟩ := h
  simp only [loadInserts]
  set R := pdUnique (df.map CleanRow.risp) with hR
  set M := pdUnique (df.map (fun r => (r.cod_municipio, r.municipio, r.risp))) with hM
  set T := pdUnique (df.map CleanRow.natureza_padronizada) with hT
  set db2 := insertMunicipios M (insertRisps R db) with hdb2
  constructor
  · intro c hcmem
    rcases insertCrimes_charac df _ _ c hcmem with hold | hnew
    · rw [insertTipos_crime, insertMunicipios_crime, insertRisps_crime, hc] at hold
      cases hold
    · obtain ⟨row, hrow, hcod, htid⟩ := hnew
      constructor
      · have hpad : row.natureza_padronizada ∈ T := by
          rw [hT]
          exact (mem_pdUnique _ _).mpr (List.mem_map_of_mem CleanRow.natureza_padronizada hrow)
        have hsome := insertTipos_lookup_isSome T db2 row.natureza_padronizada hpad
        obtain ⟨v, hv⟩ := Option.isSome_iff_exists.mp hsome
        have hq := lookup_mem _ _ _ hv
        obtain ⟨t, ht, hte⟩ := insertTipos_dict_backed T db2 _ hq
        refine ⟨t, ?_, ?_⟩
        · rw [insertCrimes_tipo]
          exact ht
        · rw [htid, hv, hte]
      · have htrip : (row.cod_municipio, row.municipio, row.risp) ∈ M := by
          rw [hM]
          exact (mem_pdUnique _ _).mpr
            (List.mem_map_of_mem (fun r => (r.cod_municipio, r.municipio, r.risp)) hrow)
        obtain ⟨m, hm, hme⟩ := insertMunicipios_complete _ _ _ htrip
        refine ⟨m, ?_, ?_⟩
        · rw [insertCrimes_municipio, insertTipos_municipio]
          exact hm
        · rw [hcod, hme]
  · intro m hmmem
    rw [insertCrimes_municipio, insertTipos_municipio] at hmmem
    rw [insertCrimes_risp, insertTipos_risp, insertMunicipios_risp]
    rcases insertMunicipios_charac _ _ m hmmem with hold | hnew
    · rw [insertRisps_municipio] at hold
      obtain ⟨r, hr, hre⟩ := hmuni m hold
      exact ⟨r, insertRisps_mono _ db r hr, hre⟩
    · obtain ⟨t, ht, hte⟩ := hnew
      rw [hM] at ht
      obtain ⟨row, hrow, hroweq⟩ := List.mem_map.mp ((mem_pdUnique _ _).mp ht)
      have hrisp : row.risp ∈ R := by
        rw [hR]
        exact (mem_pdUnique _ _).mpr (List.mem_map_of_mem CleanRow.risp hrow)
      obtain ⟨x, hx, hxe⟩ := insertRisps_complete R db row.risp hrisp
      refine ⟨x, hx, ?_⟩
      rw [hte]
      have : t.2.2 = row.risp := by rw [← hroweq]
      rw [this, hxe]

/-! ## Concrete data used by witnesses and end-to-end scenarios -/

/-- The end-to-end scenario row of spec §8: municipality BELO HORIZONTE,
code 0001, type ROUBO, month 1, year 2023, registros 10, risp 1. -/
def dupRow : CleanRow :=
  { municipio := some "BELO HORIZONTE", cod_municipio := "0001",
    natureza := some "ROUBO", natureza_padronizada := some "ROUBO",
    rmbh := some false, registros := 10, mes := 1, ano := 2023, risp := 1 }

/-- A store already holding one incident row, exercising the fast path. -/
def preloadedDB : DB :=
  { risp := [{ id := 1, descricao := "RISP 1" }],
    municipio := [{ cod_municipio := "0001", nome := some "BELO HORIZONTE", risp_id := 1 }],
    tipo_crime := [{ id := 1, nome := some "ROUBO" }], next_tipo_id := 2,
    crime := [{ id := 1, mes := 1, ano := 2023, registros := 10, rmbh := some false,
                municipio_id := "0001", tipo_crime_id := some 1 }],
    next_crime_id := 2 }

/-! ## Claim theorems -/

/-- Claim C1: loading the same cleaned dataset twice — first against the
empty store, then against the resulting populated store — leaves the
store of the first load unchanged (hence identical row counts in all four
tables), and whenever the crime table already holds at least one row the
loader returns without performing any write. -/
theorem claim1_idempotent_load (df : List CleanRow) (db : DB) :
    (db.crime ≠ [] → create_normalized_database df db = db) ∧
    create_normalized_database df (create_normalized_database df emptyDB) =
      create_normalized_database df emptyDB := by
  constructor
  · intro h
    exact create_skip df db h
  · by_cases hdf : df = []
    · subst hdf
      have h1 : create_normalized_database [] emptyDB = emptyDB := by
        rw [create_run [] emptyDB rfl]
        exact loadInserts_nil emptyDB
      rw [h1]
      exact h1
    · have h1 : create_normalized_database df emptyDB = loadInserts df emptyDB :=
        create_run df emptyDB rfl
      have h2 : (create_normalized_database df emptyDB).crime ≠ [] := by
        rw [h1]
        exact loadInserts_crime_nonempty df emptyDB hdf
      exact create_skip df _ h2

/-- Witness for C1 at a concrete dataset and a concrete populated store. -/
theorem claim1_idempotent_load_witness :
    preloadedDB.crime ≠ [] ∧ create_normalized_database [dupRow] preloadedDB = preloadedDB :=
  ⟨by decide, (claim1_idempotent_load [dupRow] preloadedDB).1 (by decide)⟩

/-- Claim C2: after any number of loader invocations starting from the
empty store, no two rows of any table share a natural/composite key; and
loading the two-fold verbatim-duplicated ROUBO row of spec §8 into the
empty store yields exactly one row in each of the four tables. -/
theorem claim2_unique_keys :
    (∀ dfs : List (List CleanRow),
        uniqueKeys (dfs.foldl (fun db df => create_normalized_database df db) emptyDB)) ∧
    ((create_normalized_database [dupRow, dupRow] emptyDB).risp.length = 1 ∧
     (create_normalized_database [dupRow, dupRow] emptyDB).municipio.length = 1 ∧
     (create_normalized_database [dupRow, dupRow] emptyDB).tipo_crime.length = 1 ∧
     (create_normalized_database [dupRow, dupRow] emptyDB).crime.length = 1) := by
  constructor
  · intro dfs
    have haux : ∀ (db : DB), uniqueKeys db →
        uniqueKeys (dfs.foldl (fun db df => create_normalized_database df db) db) := by
      induction dfs with
      | nil => intro db h; exact h
      | cons df dfs ih =>
          intro db h
          exact ih _ (create_uniqueKeys df db h)
    exact haux emptyDB (by simp [uniqueKeys, emptyDB])
  · exact ⟨by decide, by decide, by decide, by decide⟩

/-- Claim C5: the loader never writes an incident row with a null or
dangling foreign key — every crime row's type id is non-null and resolves
to a `tipo_crime` row, its municipality code resolves to a `municipio`
row, and every municipality's region id resolves to a `risp` row —
provided the store already satisfied this integrity invariant before the
load. -/
theorem claim5_no_dangling_fk (df : List CleanRow) (db : DB) (h : FKInv db) :
    FKInv (create_normalized_database df db) := by
  by_cases hc : db.crime = []
  · rw [create_run df db hc]
    exact loadInserts_FKInv df db hc h
  · rw [create_skip df db hc]
    exact h

/-- Witness for C5: the empty store satisfies the invariant, and loading
a concrete dataset preserves it. -/
theorem claim5_no_dangling_fk_witness :
    FKInv emptyDB ∧ FKInv (create_normalized_database [dupRow] emptyDB) :=
  ⟨⟨fun c hc => (List.not_mem_nil c hc).elim, fun m hm => (List.not_mem_nil m hm).elim⟩,
   claim5_no_dangling_fk [dupRow] emptyDB
     ⟨fun c hc => (List.not_mem_nil c hc).elim, fun m hm => (List.not_mem_nil m hm).elim⟩⟩

/-! ## Helpers for evaluating two-row loads symbolically -/

theorem pdUnique_pair_eq {α : Type} [DecidableEq α] (a : α) : pdUnique [a, a] = [a] := by
  simp [pdUnique]

theorem pdUnique_pair_ne {α : Type} [DecidableEq α] (a b : α) (h : b ≠ a) :
    pdUnique [a, b] = [a, b] := by
  simp [pdUnique, h]

theorem muni_two_rows (t1 t2 : String × Option String × Int) (db : DB)
    (hdb : db.municipio = []) (h12 : t2.1 = t1.1) :
    (insertMunicipios (pdUnique [t1, t2]) db).municipio =
      [{ cod_municipio := t1.1, nome := t1.2.1, risp_id := t1.2.2 }] := by
  have hstep1 : (muniStep db t1).municipio =
      [{ cod_municipio := t1.1, nome := t1.2.1, risp_id := t1.2.2 }] := by
    unfold muniStep
    rw [hdb]
    simp
  by_cases he : t2 = t1
  · rw [he, pdUnique_pair_eq]
    exact hstep1
  · rw [pdUnique_pair_ne t1 t2 he]
    show (muniStep (muniStep db t1) t2).municipio = _
    generalize hX : muniStep db t1 = X at hstep1 ⊢
    have hcond : (X.municipio.any (fun m => m.cod_municipio == t2.1)) = true := by
      rw [hstep1]
      simp [h12]
    unfold muniStep
    rw [if_pos hcond]
    exact hstep1

theorem tipos_single (nome : Option String) (db : DB) (hdb : db.tipo_crime = []) :
    insertTipos [nome] db =
      ({ db with tipo_crime := [{ id := db.next_tipo_id, nome := nome }],
                 next_tipo_id := db.next_tipo_id + 1 },
       [(nome, db.next_tipo_id)]) := by
  show tipoStep (db, []) nome = _
  unfold tipoStep
  rw [hdb]
  simp

theorem crimeStep_empty (dict : List (Option String × Nat)) (db : DB) (row : CleanRow)
    (hdb : db.crime = []) :
    crimeStep dict db row =
      { db with crime := [{ id := db.next_crime_id, mes := row.mes, ano := row.ano,
                            registros := row.registros, rmbh := row.rmbh,
                            municipio_id := row.cod_municipio,
                            tipo_crime_id := dict.lookup row.natureza_padronizada }],
                next_crime_id := db.next_crime_id + 1 } := by
  unfold crimeStep
  rw [hdb]
  simp

theorem crimeStep_skip (dict : List (Option String × Nat)) (db : DB) (row : CleanRow)
    (c : Crime) (hdb : db.crime = [c])
    (h1 : c.municipio_id = row.cod_municipio)
    (h2 : c.tipo_crime_id = dict.lookup row.natureza_padronizada)
    (h3 : c.mes = row.mes) (h4 : c.ano = row.ano) :
    crimeStep dict db row = db := by
  unfold crimeStep
  rw [hdb]
  simp [h1, h2, h3, h4]

theorem crimes_two_rows (dict : List (Option String × Nat)) (Q : DB) (r1 r2 : CleanRow)
    (hQ : Q.crime = []) (hn : Q.next_crime_id = 1)
    (hcod : r2.cod_municipio = r1.cod_municipio)
    (hnat : r2.natureza_padronizada = r1.natureza_padronizada)
    (hmes : r2.mes = r1.mes) (hano : r2.ano = r1.ano)
    (v : Option Nat) (hv : dict.lookup r1.natureza_padronizada = v) :
    (insertCrimes [r1, r2] dict Q).crime =
      [{ id := 1, mes := r1.mes, ano := r1.ano, registros := r1.registros, rmbh := r1.rmbh,
         municipio_id := r1.cod_municipio, tipo_crime_id := v }] ∧
    (insertCrimes [r1, r2] dict Q).municipio = Q.municipio := by
  have hstep1 : crimeStep dict Q r1 =
      { Q with crime := [{ id := Q.next_crime_id, mes := r1.mes, ano := r1.ano,
                           registros := r1.registros, rmbh := r1.rmbh,
                           municipio_id := r1.cod_municipio,
                           tipo_crime_id := dict.lookup r1.natureza_padronizada }],
               next_crime_id := Q.next_crime_id + 1 } :=
    crimeStep_empty dict Q r1 hQ
  rw [hn, hv] at hstep1
  have hstep2 : crimeStep dict (crimeStep dict Q r1) r2 = crimeStep dict Q r1 := by
    apply crimeStep_skip dict _ r2
      ({ id := 1, mes := r1.mes, ano := r1.ano, registros := r1.registros, rmbh := r1.rmbh,
         municipio_id := r1.cod_municipio, tipo_crime_id := v })
    · rw [hstep1]
    · exact hcod.symm
    · rw [hnat, hv]
    · exact hmes.symm
    · exact hano.symm
  constructor
  · show (crimeStep dict (crimeStep dict Q r1) r2).crime = _
    rw [hstep2, hstep1]
  · show (crimeStep dict (crimeStep dict Q r1) r2).municipio = _
    rw [hstep2, hstep1]

/-- Claim C10: the loader's existence checks compare only natural keys.
For two cleaned rows agreeing on the incident key (same municipality
code, standardized type, month, year) but possibly differing anywhere
else, loading them into the empty store persists exactly the
first-encountered row's `registros`/`rmbh` values in the single incident
row, and the first-encountered name and region in the single municipality
row; the second row is skipped without error. -/
theorem claim10_first_wins (r1 r2 : CleanRow)
    (hcod : r2.cod_municipio = r1.cod_municipio)
    (hnat : r2.natureza_padronizada = r1.natureza_padronizada)
    (hmes : r2.mes = r1.mes) (hano : r2.ano = r1.ano) :
    (create_normalized_database [r1, r2] emptyDB).municipio =
      [{ cod_municipio := r1.cod_municipio, nome := r1.municipio, risp_id := r1.risp }] ∧
    (create_normalized_database [r1, r2] emptyDB).crime =
      [{ id := 1, mes := r1.mes, ano := r1.ano, registros := r1.registros, rmbh := r1.rmbh,
         municipio_id := r1.cod_municipio, tipo_crime_id := some 1 }] := by
  rw [create_run [r1, r2] emptyDB rfl]
  simp only [loadInserts, List.map_cons, List.map_nil]
  rw [hnat, hcod, pdUnique_pair_eq]
  set db1 := insertRisps (pdUnique [r1.risp, r2.risp]) emptyDB with hdb1
  set db2 := insertMunicipios
      (pdUnique [(r1.cod_municipio, r1.municipio, r1.risp),
                 (r1.cod_municipio, r2.municipio, r2.risp)]) db1 with hdb2
  have hmuni1 : db1.municipio = [] := by
    rw [hdb1, insertRisps_municipio]
    rfl
  have htipo2 : db2.tipo_crime = [] := by
    rw [hdb2, insertMunicipios_tipo, hdb1, insertRisps_tipo]
    rfl
  have hnext2 : db2.next_tipo_id = 1 := by
    rw [hdb2, insertMunicipios_next_tipo, hdb1, insertRisps_next_tipo]
    rfl
  have hcrime2 : db2.crime = [] := by
    rw [hdb2, insertMunicipios_crime, hdb1, insertRisps_crime]
    rfl
  have hncr2 : db2.next_crime_id = 1 := by
    rw [hdb2, insertMunicipios_next_crime, hdb1, insertRisps_next_crime]
    rfl
  have hmuni2 : db2.municipio =
      [{ cod_municipio := r1.cod_municipio, nome := r1.municipio, risp_id := r1.risp }] := by
    rw [hdb2]
    exact muni_two_rows _ _ db1 hmuni1 rfl
  rw [tipos_single r1.natureza_padronizada db2 htipo2, hnext2]
  have hlook : (([(r1.natureza_padronizada, 1)] :
      List (Option String × Nat)).lookup r1.natureza_padronizada) = some 1 := by
    simp [List.lookup]
  have hmain := crimes_two_rows [(r1.natureza_padronizada, 1)]
    ({ db2 with tipo_crime := [{ id := 1, nome := r1.natureza_padronizada }],
                next_tipo_id := 1 + 1 } : DB) r1 r2 hcrime2 hncr2 hcod hnat hmes hano
    (some 1) hlook
  exact ⟨hmain.2.trans hmuni2, hmain.1⟩

deriving instance DecidableEq for Except

/-- First of two cleaned rows sharing the incident key: BETIM, code 0005. -/
def c10rowA : CleanRow :=
  { municipio := some "BETIM", cod_municipio := "0005", natureza := some "FURTO",
    natureza_padronizada := some "FURTO", rmbh := some true, registros := 7, mes := 3,
    ano := 2022, risp := 2 }

/-- Second row with the same incident key but different name, region,
`registros` and `rmbh`. -/
def c10rowB : CleanRow :=
  { municipio := some "OUTRO NOME", cod_municipio := "0005", natureza := some "FURTO",
    natureza_padronizada := some "FURTO", rmbh := some false, registros := 99, mes := 3,
    ano := 2022, risp := 9 }

/-- Witness for C10 at two concrete same-key rows with conflicting
non-key attributes: only the first row's values are persisted. -/
theorem claim10_first_wins_witness :
    (c10rowB.cod_municipio = c10rowA.cod_municipio ∧
     c10rowB.natureza_padronizada = c10rowA.natureza_padronizada ∧
     c10rowB.mes = c10rowA.mes ∧ c10rowB.ano = c10rowA.ano) ∧
    ((create_normalized_database [c10rowA, c10rowB] emptyDB).municipio =
       [{ cod_municipio := c10rowA.cod_municipio, nome := c10rowA.municipio,
          risp_id := c10rowA.risp }] ∧
     (create_normalized_database [c10rowA, c10rowB] emptyDB).crime =
       [{ id := 1, mes := c10rowA.mes, ano := c10rowA.ano, registros := c10rowA.registros,
          rmbh := c10rowA.rmbh, municipio_id := c10rowA.cod_municipio,
          tipo_crime_id := some 1 }]) :=
  ⟨⟨rfl, rfl, rfl, rfl⟩, claim10_first_wins c10rowA c10rowB rfl rfl rfl rfl⟩

/-- A raw row whose `risp` cell fails numeric parsing while every other
field is well formed. -/
def badRispRow : RawRow :=
  { municipio := some "Ibirite", cod_municipio := "0010", natureza := some "Roubo",
    rmbh := some "SIM", registros := some "5", mes := some "1", ano := some "2023",
    risp := some "abc" }

/-- Claim C3 (behavior of the code at the failing input): a dataset with
an unparsable `risp` makes the normalizer fail with the integer-cast
error instead of silently dropping the row, because line 50 of `app.py`
runs `.astype(int)` on the coerced `risp` column before the `dropna` of
line 53 can remove the NaN. -/
theorem claim3_risp_raises :
    load_and_clean_data [badRispRow] = Except.error intCastErr := by decide

/-- A well-formed raw row with month 6. -/
def goodRow : RawRow :=
  { municipio := some "Sabara", cod_municipio := "0020", natureza := some "Homicidio",
    rmbh := some "NÃO", registros := some "3", mes := some "6", ano := some "2023",
    risp := some "4" }

/-- Counterexample to C4 as stated: on a dataset holding one well-formed
row and one row with unparsable `risp`, the claim predicts the cleaned
output `spec_clean` (bad row discarded, good row kept), but the
normalizer returns an error instead. -/
theorem claim4_counterexample :
    load_and_clean_data [goodRow, badRispRow] ≠
      Except.ok (spec_clean [goodRow, badRispRow]) := by decide

theorem finalize_coerce (r : RawRow) : finalizeRow (coerceRow r) = spec_clean_row r := by
  rcases r with ⟨mun, cod, nat, rm, reg, mes, ano, risp⟩
  cases nat <;> cases rm <;>
    simp [finalizeRow, coerceRow, spec_clean_row, spec_rmbh, rmbhMap]

/-- Claim C4 as amended: provided every row's `risp` parses (otherwise
the whole pass fails before any filtering, per C3), the normalizer
returns exactly the rows with present `registros`, `mes` and `ano` after
coercion, cleaned per the spec's §4.1 wording — in particular a row with
absent `rmbh` is not discarded. -/
theorem claim4_row_filter (rows : List RawRow)
    (h : ∀ r ∈ rows, (toNumeric r.risp).isSome) :
    load_and_clean_data rows = Except.ok (spec_clean rows) := by
  have hcond : ((rows.map coerceRow).any (fun m => m.rispN.isNone)) = false := by
    rw [List.any_eq_false]
    intro m hm
    obtain ⟨r, hr, hre⟩ := List.mem_map.mp hm
    have hs := h r hr
    rw [← hre]
    cases htn : toNumeric r.risp with
    | none => rw [htn] at hs; cases hs
    | some v => simp [coerceRow, htn]
  unfold load_and_clean_data
  rw [hcond]
  simp only [Bool.false_eq_true, if_false]
  unfold spec_clean
  rw [List.filter_map, List.map_map]
  have hfil : rows.filter ((fun m : CoercedRow =>
        m.registros.isSome && m.mes.isSome && m.ano.isSome) ∘ coerceRow) =
      rows.filter (fun r => (toNumeric r.registros).isSome && (toNumeric r.mes).isSome &&
        (toNumeric r.ano).isSome && (toNumeric r.risp).isSome) := by
    apply List.filter_congr
    intro r hr
    have hs := h r hr
    simp only [Function.comp_apply, coerceRow, hs, Bool.and_true]
  rw [hfil]
  congr 1
  apply List.map_congr_left
  intro r _
  exact finalize_coerce r

/-- A raw row whose `rmbh` literal maps to neither yes nor no, so the
cleaned row carries an absent boolean. -/
def rmbhOtherRow : RawRow :=
  { municipio := some "Vespasiano", cod_municipio := "0030", natureza := some "Furto",
    rmbh := some "TALVEZ", registros := some "8", mes := some "2", ano := some "2023",
    risp := some "3" }

/-- A raw row with unparsable `registros` (and parsable `risp`). -/
def regBadRow : RawRow :=
  { municipio := some "Nova Lima", cod_municipio := "0040", natureza := some "Roubo",
    rmbh := some "SIM", registros := some "abc", mes := some "4", ano := some "2023",
    risp := some "5" }

/-- Witness for amended C4: every `risp` parses; the row with an
unmapped `rmbh` survives with an absent boolean while the row with
unparsable `registros` is dropped. -/
theorem claim4_row_filter_witness :
    (∀ r ∈ [rmbhOtherRow, regBadRow], (toNumeric r.risp).isSome) ∧
    load_and_clean_data [rmbhOtherRow, regBadRow] =
      Except.ok (spec_clean [rmbhOtherRow, regBadRow]) :=
  ⟨by decide, claim4_row_filter [rmbhOtherRow, regBadRow] (by decide)⟩

/-- The retained row of the §8 coercion scenario: registros "12",
mes "13", ano "2023", risp "2". -/
def c6rowKeep : RawRow :=
  { municipio := some " Contagem ", cod_municipio := "0002", natureza := some " Furto ",
    rmbh := some "sim", registros := some "12", mes := some "13", ano := some "2023",
    risp := some "2" }

/-- The dropped row of the §8 coercion scenario: registros "abc". -/
def c6rowDrop : RawRow :=
  { municipio := some "X", cod_municipio := "0003", natureza := some "Roubo",
    rmbh := some "NÃO", registros := some "abc", mes := some "1", ano := some "2023",
    risp := some "1" }

/-- Claim C6: the surviving row is materialized with `registros`, `mes`
and `ano` as exact integers (12, 13, 2023 — the out-of-range month 13 is
not rejected), while the row with unparsable `registros` is dropped. -/
theorem claim6_integer_coercion :
    load_and_clean_data [c6rowKeep, c6rowDrop] =
      Except.ok [{ municipio := some "CONTAGEM", cod_municipio := "0002",
                   natureza := some "Furto", natureza_padronizada := some "FURTO",
                   rmbh := some true, registros := 12, mes := 13, ano := 2023, risp := 2 }] := by
  decide

/-- Six rows exercising every branch of the `rmbh` mapping: the yes and
no literals in several cases and paddings, an unmapped literal, and a
missing cell; all other fields parse. -/
def c7rows : List RawRow :=
  [{ municipio := some "A", cod_municipio := "1", natureza := some "X", rmbh := some "SIM",
     registros := some "1", mes := some "1", ano := some "2023", risp := some "1" },
   { municipio := some "B", cod_municipio := "2", natureza := some "X", rmbh := some "  sim  ",
     registros := some "1", mes := some "1", ano := some "2023", risp := some "1" },
   { municipio := some "C", cod_municipio := "3", natureza := some "X", rmbh := some "NÃO",
     registros := some "1", mes := some "1", ano := some "2023", risp := some "1" },
   { municipio := some "D", cod_municipio := "4", natureza := some "X", rmbh := some "não",
     registros := some "1", mes := some "1", ano := some "2023", risp := some "1" },
   { municipio := some "E", cod_municipio := "5", natureza := some "X", rmbh := some "TALVEZ",
     registros := some "1", mes := some "1", ano := some "2023", risp := some "1" },
   { municipio := some "F", cod_municipio := "6", natureza := some "X", rmbh := none,
     registros := some "1", mes := some "1", ano := some "2023", risp := some "1" }]

/-- Claim C7: the normalizer's `rmbh` coercion agrees with the spec's
worded mapping on every input row (trim, case-fold, yes to true, no to
false, everything else absent), and end-to-end through the pipeline the
six representative literals come out as the expected booleans. -/
theorem claim7_rmbh_mapping :
    (∀ r : RawRow, (coerceRow r).rmbh = spec_rmbh r.rmbh) ∧
    (load_and_clean_data c7rows).map (fun l => l.map CleanRow.rmbh) =
      Except.ok [some true, some true, some false, some false, none, none] := by
  constructor
  · intro r
    show r.rmbh.bind (fun s => rmbhMap (pyUpper (pyStrip s))) = spec_rmbh r.rmbh
    cases hr : r.rmbh with
    | none => rfl
    | some s => simp [spec_rmbh, rmbhMap]
  · decide

/-! ## The projection claims -/

theorem groupBySum_lookup (pairs : List (Int × Int)) (k : Int) :
    ((pdGroupBySum pairs).lookup k).getD 0 =
      ((pairs.filter (fun p => p.1 == k)).map Prod.snd).foldl (· + ·) 0 := by
  unfold pdGroupBySum
  by_cases hk : k ∈ pdUnique (pairs.map Prod.fst)
  · rw [lookup_map_mem _ _ k hk]
    rfl
  · rw [lookup_map_not_mem _ _ k hk]
    have hmem : k ∉ pairs.map Prod.fst := fun hc => hk ((mem_pdUnique _ _).mpr hc)
    have hfilter : pairs.filter (fun p => p.1 == k) = [] := by
      rw [List.filter_eq_nil_iff]
      intro p hp hpk
      exact hmem (List.mem_map.mpr ⟨p, hp, eq_of_beq hpk⟩)
    rw [hfilter]
    rfl

theorem month_filter_bridge (df : List CleanRow) (m : Int) :
    ((df.map (fun r => (r.mes, r.registros))).filter (fun p => p.1 == m)).map Prod.snd =
      (df.filter (fun r => r.mes == m)).map CleanRow.registros := by
  rw [List.filter_map, List.map_map]
  rfl

theorem quarter_filter_bridge (df : List CleanRow) (q : Int) :
    ((df.map (fun r => (Int.fdiv (r.mes - 1) 3 + 1, r.registros))).filter
        (fun p => p.1 == q)).map Prod.snd =
      (df.filter (fun r => Int.fdiv (r.mes - 1) 3 + 1 == q)).map CleanRow.registros := by
  rw [List.filter_map, List.map_map]
  rfl

/-- Two cleaned rows carrying data only for months 5 and 11. -/
def df8 : List CleanRow := [{ dupRow with mes := 5, registros := 7 },
                            { dupRow with mes := 11, registros := 3 }]

/-- Claim C8: for every cleaned dataset the by-month projection is
exactly one row per month 1..12 whose value is the total of `registros`
over that month (so months without data appear with 0); over a dataset
with data only in months 5 and 11, the other ten months appear with 0. -/
theorem claim8_by_month :
    (∀ df : List CleanRow, crimes_por_mes df =
      ((List.range 12).map (fun i => (i : Int) + 1)).map (fun m => (m, spec_sum_mes df m))) ∧
    crimes_por_mes df8 = [(1, 0), (2, 0), (3, 0), (4, 0), (5, 7), (6, 0), (7, 0), (8, 0),
                          (9, 0), (10, 0), (11, 3), (12, 0)] := by
  constructor
  · intro df
    unfold crimes_por_mes pdReindex
    apply List.map_congr_left
    intro m hm
    rw [groupBySum_lookup, month_filter_bridge]
    rfl
  · decide

/-- A single cleaned row with month 7 and 5 incidents. -/
def c9row : CleanRow := { dupRow with mes := 7, registros := 5 }

/-- Claim C9: for every cleaned dataset the by-quarter projection is
exactly one row per quarter 1..4 whose value is the total of `registros`
over the rows with derived quarter `((mes - 1) // 3) + 1` (floor
division), quarters without data appearing with 0; in particular a
month-7 record lands in quarter 3. -/
theorem claim9_by_quarter :
    (∀ df : List CleanRow, crimes_por_trimestre df =
      ((List.range 4).map (fun i => (i : Int) + 1)).map
        (fun q => (q, spec_sum_trimestre df q))) ∧
    crimes_por_trimestre [c9row] = [(1, 0), (2, 0), (3, 5), (4, 0)] := by
  constructor
  · intro df
    unfold crimes_por_trimestre pdReindex
    apply List.map_congr_left
    intro q hq
    rw [groupBySum_lookup, quarter_filter_bridge]
    rfl
  · decide
